import Mathlib

/-!
Verification of the MAVLink FTP server core (src/src/modules/mavlink/mavlink_ftp.h).

The header declares the protocol constants, the wire layouts, the opcode and
error enumerations, the session table, and the request slot pool, and gives
inline bodies for the free-list operations and the request accessors.  The
implementation file of the class (mavlink_ftp.cpp) is not part of the sources,
so the bodies of the worker, the dispatch operations and the session-table
operations are modelled from the specification; each such definition is marked
`Modelled from the spec:` in its doc comment.  Machine integers are modelled as
Nat with explicit reduction modulo 256 / 2^32 where the C types (uint8_t,
uint32_t) truncate.
-/

namespace MavlinkFTP

/-- Source constant `kRequestQueueSize = 2`: capacity of the request slot pool. -/
def kRequestQueueSize : Nat := 2

/-- Source constant `Session::kMaxSession = 2`: capacity of the session table. -/
def kMaxSession : Nat := 2

/-- Source constant `kProtocolMagic = 'f'` (ASCII 102). -/
def kProtocolMagic : Nat := 102

/-- Size in bytes of the packed `RequestHeader` prefix
(magic, session, opcode, size : one byte each; crc32, offset : four bytes each). -/
def sizeofRequestHeader : Nat := 12

/-- Modelled from the spec: `MAVLINK_MSG_ENCAPSULATED_DATA_FIELD_DATA_LEN`, the
fixed size of the encapsulated-data payload field carrying one frame; the
mavlink message definitions are not under src. -/
def kEncapsulatedDataFieldLen : Nat := 253

/-- Source constant `kMaxDataLength = MAVLINK_MSG_ENCAPSULATED_DATA_FIELD_DATA_LEN - sizeof(RequestHeader)`. -/
def kMaxDataLength : Nat := kEncapsulatedDataFieldLen - sizeofRequestHeader

/-- Source enum `Opcode`. -/
inductive Opcode : Type
| kCmdNone
| kCmdTerminate
| kCmdReset
| kCmdList
| kCmdOpen
| kCmdRead
| kCmdCreate
| kCmdWrite
| kCmdRemove
| kRspAck
| kRspNak
deriving DecidableEq, Repr

/-- Source enum `ErrorCode` (the last-but-one constructor is spelled kErrIO in
the source; Io here). -/
inductive ErrorCode : Type
| kErrNone
| kErrNoRequest
| kErrNoSession
| kErrSequence
| kErrNotDir
| kErrNotFile
| kErrEOF
| kErrNotAppend
| kErrTooBig
| kErrIo
| kErrPerm
deriving DecidableEq, Repr

/-- Numeric value of an opcode, as in the source enum (uint8_t). -/
def opByte : Opcode → Nat
| .kCmdNone => 0
| .kCmdTerminate => 1
| .kCmdReset => 2
| .kCmdList => 3
| .kCmdOpen => 4
| .kCmdRead => 5
| .kCmdCreate => 6
| .kCmdWrite => 7
| .kCmdRemove => 8
| .kRspAck => 9
| .kRspNak => 10

/-- Decode an opcode byte; bytes beyond the enum range have no opcode. -/
def opcodeOfByte (b : Nat) : Option Opcode :=
  match b with
  | 0 => some .kCmdNone
  | 1 => some .kCmdTerminate
  | 2 => some .kCmdReset
  | 3 => some .kCmdList
  | 4 => some .kCmdOpen
  | 5 => some .kCmdRead
  | 6 => some .kCmdCreate
  | 7 => some .kCmdWrite
  | 8 => some .kCmdRemove
  | 9 => some .kRspAck
  | 10 => some .kRspNak
  | _ => none

/-- Numeric value of an error code, as in the source enum (uint8_t). -/
def errByte : ErrorCode → Nat
| .kErrNone => 0
| .kErrNoRequest => 1
| .kErrNoSession => 2
| .kErrSequence => 3
| .kErrNotDir => 4
| .kErrNotFile => 5
| .kErrEOF => 6
| .kErrNotAppend => 7
| .kErrTooBig => 8
| .kErrIo => 9
| .kErrPerm => 10

/-- Source struct `RequestHeader`, in decoded form: the fixed-layout prefix of
every frame's payload.  Field values are the parsed unsigned integers
(one byte each for magic/session/opcode/size, uint32 for crc32/offset). -/
structure RequestHeader : Type where
  magic : Nat
  session : Nat
  opcode : Nat
  size : Nat
  crc32 : Nat
  offset : Nat
deriving DecidableEq, Repr

/-- Read one byte of a raw buffer (uint8_t array): out-of-range reads of the
fixed-size mavlink field give 0, and values are truncated to a byte. -/
def byteAt (buf : List Nat) (i : Nat) : Nat := buf.getD i 0 % 256

/-- Read a little-endian uint32 at byte offset `i` of a raw buffer. -/
def readLe32 (buf : List Nat) (i : Nat) : Nat :=
  byteAt buf i + byteAt buf (i + 1) * 256 + byteAt buf (i + 2) * 65536 +
    byteAt buf (i + 3) * 16777216

/-- Little-endian serialization of a uint32 into four bytes. -/
def le32 (n : Nat) : List Nat :=
  [n % 256, n / 256 % 256, n / 65536 % 256, n / 16777216 % 256]

/-- Modelled from the spec: one step of the bitwise CRC32 update (the checksum
routine lives in the missing implementation file). -/
def crc32Step (c : Nat) : Nat :=
  if c % 2 = 1 then Nat.xor (c / 2) 0xEDB88320 else c / 2

/-- CRC32 update for one byte. -/
def crc32Byte (crc b : Nat) : Nat :=
  (List.range 8).foldl (fun acc _ => crc32Step acc) (Nat.xor crc (b % 256))

/-- Modelled from the spec: CRC32 over a byte list, "checksum of
header-with-crc-zeroed plus data area". -/
def crc32 (bytes : List Nat) : Nat :=
  Nat.xor (bytes.foldl crc32Byte 0xFFFFFFFF) 0xFFFFFFFF

/-- Serialization of a header with its crc field zeroed, the prefix the
checksum is computed over. -/
def headerBytesZeroCrc (h : RequestHeader) : List Nat :=
  [h.magic, h.session, h.opcode, h.size] ++ le32 0 ++ le32 h.offset

/-- Checksum of a frame: CRC32 over the header (crc field zeroed) concatenated
with the data area. -/
def frameCrc (h : RequestHeader) (data : List Nat) : Nat :=
  crc32 (headerBytesZeroCrc h ++ data)

/-- Serialization of a header (all fields), for building concrete frames. -/
def headerBytes (h : RequestHeader) : List Nat :=
  [h.magic, h.session, h.opcode, h.size] ++ le32 h.crc32 ++ le32 h.offset

/-- Build a raw frame from a header and a data area, filling in the correct
checksum over header-with-crc-zeroed plus data. -/
def mkFrame (h : RequestHeader) (data : List Nat) : List Nat :=
  headerBytes { h with crc32 := frameCrc h data } ++ data

/-- Reinterpretation of the raw buffer as a RequestHeader (the source's
`Request::header()` cast). -/
def parseHeader (buf : List Nat) : RequestHeader :=
  { magic := byteAt buf 0
    session := byteAt buf 1
    opcode := byteAt buf 2
    size := byteAt buf 3
    crc32 := readLe32 buf 4
    offset := readLe32 buf 8 }

/-- Decode step of the dispatcher (spec 4.3 step 1): interpret the raw buffer
as a RequestHeader plus trailing data; reject if the magic mismatches or the
declared size would overrun the buffer.  The fixed-size check
`size ≤ kMaxDataLength` is the source's `Request::dataSize` bound. -/
def decode (buf : List Nat) : Option (RequestHeader × List Nat) :=
  if buf.length < sizeofRequestHeader then none
  else if (parseHeader buf).magic = kProtocolMagic ∧
      (parseHeader buf).size ≤ kMaxDataLength ∧
      sizeofRequestHeader + (parseHeader buf).size ≤ buf.length then
    some (parseHeader buf,
      ((buf.drop sizeofRequestHeader).take (parseHeader buf).size).map
        (fun b => b % 256))
  else none

/-- File paths on the wire are NUL-terminated byte strings. -/
abbrev Path : Type := List Nat

/-- File contents, a byte list. -/
abbrev FileT : Type := List Nat

/-- Source `Request::dataAsCString`: the data area up to the first NUL. -/
def dataAsCString (data : List Nat) : Path :=
  data.takeWhile (fun b => b != 0)

/-- Source struct `FileList` entry, decoded: file size and name of one
directory entry. -/
structure DirEntry : Type where
  fileSize : Nat
  name : List Nat
deriving DecidableEq, Repr

/-- Association-list lookup for the modelled filesystem. -/
def fsLookup {α : Type} (fs : List (Path × α)) (p : Path) : Option α :=
  match fs with
  | [] => none
  | (q, f) :: rest => if q = p then some f else fsLookup rest p

/-- Insert-or-replace for the modelled filesystem. -/
def fsSet (fs : List (Path × FileT)) (p : Path) (v : FileT) : List (Path × FileT) :=
  match fs with
  | [] => [(p, v)]
  | (q, f) :: rest => if q = p then (p, v) :: rest else (q, f) :: fsSet rest p v

/-- Unlink for the modelled filesystem. -/
def fsRemove (fs : List (Path × FileT)) (p : Path) : List (Path × FileT) :=
  match fs with
  | [] => []
  | (q, f) :: rest => if q = p then fsRemove rest p else (q, f) :: fsRemove rest p

/-- State of the engine: the session table (a slot holds the path of its open
handle, or none when unopened, the `_fd = -1` sentinel), the regular files of
the filesystem collaborator, and its directories. -/
structure FTPState : Type where
  sessions : List (Option Path)
  fs : List (Path × FileT)
  dirs : List (Path × List DirEntry)
deriving DecidableEq, Repr

namespace Session

/-- Modelled from the spec: `Session::get(index)` (body not under src) —
index validity is checked before every dereference; an out-of-range or
currently-unopened index yields no session. -/
def get (tbl : List (Option Path)) (index : Nat) : Option Path :=
  if index < kMaxSession then tbl.getD index none else none

/-- Modelled from the spec: `Session::allocate` (body not under src) — finds
the first table slot currently unopened and reserves it; fails if all slots
are open. -/
def allocate (tbl : List (Option Path)) : Option Nat :=
  tbl.findIdx? (fun s => s.isNone)

/-- Modelled from the spec: static `Session::terminate(index)` (body not under
src) — closes the handle if open and marks the slot unopened; a no-op if
already unopened. -/
def terminate (tbl : List (Option Path)) (index : Nat) : List (Option Path) :=
  if index < kMaxSession then tbl.set index none else tbl

/-- Modelled from the spec: `Session::reset` (body not under src) — terminates
all sessions unconditionally. -/
def reset : List (Option Path) :=
  List.replicate kMaxSession none

end Session

/-- Outcome of one dispatched operation: success with the reply session id and
payload, or an error code. -/
inductive WorkResult : Type
| ok (session : Nat) (data : List Nat)
| err (e : ErrorCode)
deriving DecidableEq, Repr

/-- One reply frame: ACK or NAK opcode, session id, and data area. -/
structure Reply : Type where
  opcode : Opcode
  session : Nat
  data : List Nat
deriving DecidableEq, Repr

/-- Modelled from the spec: packing of FileList records into the reply data
area, "appending FileListEntry records until either it is full or the
directory is exhausted" (each record is 4 bytes size + 1 byte name length +
the name). -/
def packEntries (budget : Nat) (es : List DirEntry) : List Nat :=
  match es with
  | [] => []
  | e :: rest =>
    let entryBytes := le32 e.fileSize ++ [e.name.length % 256] ++ e.name
    if entryBytes.length ≤ budget then
      entryBytes ++ packEntries (budget - entryBytes.length) rest
    else []

/-- Modelled from the spec: `_workList` (body not under src) — enumerate
directory entries at offset; offset beyond entry count is an end-of-file
error; a non-directory path is a not-a-directory error. -/
def _workList (st : FTPState) (h : RequestHeader) (data : List Nat) : WorkResult :=
  let path := dataAsCString data
  match fsLookup st.dirs path with
  | none => .err .kErrNotDir
  | some es =>
    if es.length ≤ h.offset then .err .kErrEOF
    else .ok h.session (packEntries kMaxDataLength (es.drop h.offset))

/-- Modelled from the spec: `_workOpen` (body not under src) — allocate a
session then open; on success the reply carries the new session index and the
file's size; create=false on a missing regular file is a not-a-file error;
session-table exhaustion is a no-session error. -/
def _workOpen (st : FTPState) (_h : RequestHeader) (data : List Nat)
    (create : Bool) : FTPState × WorkResult :=
  let path := dataAsCString data
  match Session.allocate st.sessions with
  | none => (st, .err .kErrNoSession)
  | some i =>
    if create then
      ({ st with sessions := st.sessions.set i (some path),
                 fs := fsSet st.fs path [] },
       .ok i (le32 0))
    else
      match fsLookup st.fs path with
      | none => (st, .err .kErrNotFile)
      | some f =>
        ({ st with sessions := st.sessions.set i (some path) },
         .ok i (le32 (f.length % 4294967296)))

/-- Modelled from the spec: `_workRead` (body not under src) — session checked
via get; offset arithmetic is 32-bit and a wrapping offset + length is a
size-too-big condition; reading at an offset at or beyond the file length is
an explicit end-of-file condition; otherwise up to `size` bytes from `offset`
are returned. -/
def _workRead (st : FTPState) (h : RequestHeader) : WorkResult :=
  match Session.get st.sessions h.session with
  | none => .err .kErrNoSession
  | some p =>
    if 4294967296 ≤ h.offset + h.size then .err .kErrTooBig
    else
      match fsLookup st.fs p with
      | none => .err .kErrIo
      | some f =>
        if f.length ≤ h.offset then .err .kErrEOF
        else .ok h.session ((f.drop h.offset).take h.size)

/-- Modelled from the spec: `_workWrite` (body not under src) — session checked
via get; a wrapping offset + length is a size-too-big condition; a write whose
offset is not the current end-of-file is rejected as not-append; otherwise the
data is appended. -/
def _workWrite (st : FTPState) (h : RequestHeader) (data : List Nat) :
    FTPState × WorkResult :=
  match Session.get st.sessions h.session with
  | none => (st, .err .kErrNoSession)
  | some p =>
    if 4294967296 ≤ h.offset + data.length then (st, .err .kErrTooBig)
    else
      match fsLookup st.fs p with
      | none => (st, .err .kErrIo)
      | some f =>
        if h.offset = f.length then
          ({ st with fs := fsSet st.fs p (f ++ data) }, .ok h.session [])
        else (st, .err .kErrNotAppend)

/-- Modelled from the spec: `_workRemove` (body not under src) — unlink the
path via the filesystem collaborator; failure is an I/O error. -/
def _workRemove (st : FTPState) (h : RequestHeader) (data : List Nat) :
    FTPState × WorkResult :=
  let path := dataAsCString data
  match fsLookup st.fs path with
  | none => (st, .err .kErrIo)
  | some _ => ({ st with fs := fsRemove st.fs path }, .ok h.session [])

/-- Modelled from the spec: the dispatch step (4.3 step 3) of the worker,
routing to the operation matching the opcode.  kCmdNone always succeeds
trivially; Terminate and Reset always succeed; a reply opcode or unknown
opcode byte arriving as a request is rejected. -/
def dispatch (st : FTPState) (h : RequestHeader) (data : List Nat) :
    FTPState × WorkResult :=
  match opcodeOfByte h.opcode with
  | none => (st, .err .kErrNoRequest)
  | some .kCmdNone => (st, .ok h.session [])
  | some .kCmdTerminate =>
    ({ st with sessions := Session.terminate st.sessions h.session },
     .ok h.session [])
  | some .kCmdReset => ({ st with sessions := Session.reset }, .ok h.session [])
  | some .kCmdList => (st, _workList st h data)
  | some .kCmdOpen => _workOpen st h data false
  | some .kCmdCreate => _workOpen st h data true
  | some .kCmdRead => (st, _workRead st h)
  | some .kCmdWrite => _workWrite st h data
  | some .kCmdRemove => _workRemove st h data
  | some .kRspAck => (st, .err .kErrNoRequest)
  | some .kRspNak => (st, .err .kErrNoRequest)

/-- Modelled from the spec: `_reply` (body not under src) — the reply encoder:
success emits an ACK carrying the result payload; failure emits a NAK carrying
the error code plus the opcode that failed. -/
def _reply (h : RequestHeader) (r : WorkResult) : Reply :=
  match r with
  | .ok s d => { opcode := .kRspAck, session := s, data := d }
  | .err e =>
    { opcode := .kRspNak, session := h.session, data := [errByte e, h.opcode] }

/-- Modelled from the spec: `_worker` (body not under src) — decode, validate
the checksum, dispatch, and always produce exactly one reply per dispatched
request: a NAK when decode rejects the frame, a Sequence NAK when the
recomputed CRC32 differs from the frame's crc field (no operation executed),
and otherwise the encoded outcome of the dispatched operation. -/
def _worker (st : FTPState) (buf : List Nat) : FTPState × List Reply :=
  match decode buf with
  | none =>
    (st, [{ opcode := Opcode.kRspNak, session := byteAt buf 1,
            data := [errByte ErrorCode.kErrNoRequest, byteAt buf 2] }])
  | some (h, d) =>
    if h.crc32 = frameCrc h d then
      ((dispatch st h d).1, [_reply h (dispatch st h d).2])
    else (st, [_reply h (.err .kErrSequence)])

/-- Source inline `_qFree`: return a request buffer to the free list with
`dq_addlast` (append at the tail). -/
def _qFree (q : List Nat) (req : Nat) : List Nat := q ++ [req]

/-- Source inline `_dqFree`: take a request buffer from the free list with
`dq_remfirst` (remove the head), returning none immediately when the list is
empty. -/
def _dqFree (q : List Nat) : Option Nat × List Nat :=
  match q with
  | [] => (none, [])
  | r :: rest => (some r, rest)

end MavlinkFTP

namespace MavlinkFTP

set_option maxRecDepth 400000

/-- Parsed decoded header of the terminate witness frame, before the checksum
is filled in. -/
def hdrTerm0 : RequestHeader :=
  { magic := 102, session := 0, opcode := 1, size := 0, crc32 := 0, offset := 0 }

/-- Terminate witness header with the correct checksum. -/
def termHdr : RequestHeader := { hdrTerm0 with crc32 := frameCrc hdrTerm0 [] }

/-- Concrete valid terminate frame. -/
def termFrame : List Nat := mkFrame hdrTerm0 []

/-- Concrete engine state: session 0 open on path [97] holding a three-byte
file. -/
def st0 : FTPState :=
  { sessions := [some [97], none], fs := [([97], [1, 2, 3])], dirs := [] }

/-- Write header at the end-of-file offset of st0's file. -/
def hdrW3 : RequestHeader :=
  { magic := 102, session := 0, opcode := 7, size := 2, crc32 := 0, offset := 3 }

/-- Write header at a non-end-of-file offset. -/
def hdrW1 : RequestHeader := { hdrW3 with offset := 1 }

/-- Read header at offset 0, requested length 0. -/
def hdrR0 : RequestHeader :=
  { magic := 102, session := 0, opcode := 5, size := 0, crc32 := 0, offset := 0 }

/-- Read header at the end-of-file offset. -/
def hdrR3 : RequestHeader := { hdrR0 with offset := 3 }

/-- Read header whose offset plus length wraps past 2^32. -/
def hdrBig : RequestHeader :=
  { magic := 102, session := 0, opcode := 5, size := 16, crc32 := 0,
    offset := 4294967295 }

/-- Header naming an out-of-range session index. -/
def hdrS5 : RequestHeader :=
  { magic := 102, session := 5, opcode := 5, size := 0, crc32 := 0, offset := 0 }

theorem reply_ack_or_nak (h : RequestHeader) (r : WorkResult) :
    (_reply h r).opcode = Opcode.kRspAck ∨ (_reply h r).opcode = Opcode.kRspNak := by
  cases r with
  | ok s d => exact Or.inl rfl
  | err e => exact Or.inr rfl

theorem byteAt_lt (buf : List Nat) (i : Nat) : byteAt buf i < 256 :=
  Nat.mod_lt _ (by decide)

theorem readLe32_lt (buf : List Nat) (i : Nat) : readLe32 buf i < 4294967296 := by
  unfold readLe32
  have h0 := byteAt_lt buf i
  have h1 := byteAt_lt buf (i + 1)
  have h2 := byteAt_lt buf (i + 2)
  have h3 := byteAt_lt buf (i + 3)
  omega

theorem fsLookup_fsSet (fs : List (Path × FileT)) (p : Path) (v : FileT) :
    fsLookup (fsSet fs p v) p = some v := by
  induction fs with
  | nil => simp [fsSet, fsLookup]
  | cons head rest ih =>
    obtain ⟨q, f⟩ := head
    by_cases hq : q = p
    · simp [fsSet, hq, fsLookup]
    · simp [fsSet, hq, fsLookup, ih]

theorem set_none_of_getD_none (l : List (Option Path)) (i : Nat)
    (h : l.getD i none = none) : l.set i none = l := by
  induction l generalizing i with
  | nil => rfl
  | cons x xs ih =>
    cases i with
    | zero =>
      simp only [List.getD_cons_zero] at h
      simp [List.set, h]
    | succ n =>
      simp only [List.getD_cons_succ] at h
      simp [List.set, ih n h]

theorem worker_decode_none (st : FTPState) (buf : List Nat)
    (hdec : decode buf = none) :
    _worker st buf =
      (st, [{ opcode := Opcode.kRspNak, session := byteAt buf 1,
              data := [errByte ErrorCode.kErrNoRequest, byteAt buf 2] }]) := by
  unfold _worker
  rw [hdec]

theorem worker_decode_some (st : FTPState) (buf : List Nat)
    (h : RequestHeader) (d : List Nat) (hdec : decode buf = some (h, d)) :
    _worker st buf =
      if h.crc32 = frameCrc h d then
        ((dispatch st h d).1, [_reply h (dispatch st h d).2])
      else (st, [_reply h (.err .kErrSequence)]) := by
  unfold _worker
  rw [hdec]

/-- Claim C1: every frame that reaches the worker produces exactly one reply
frame, an ACK or a NAK — never zero replies and never more than one. -/
theorem worker_exactly_one_reply (st : FTPState) (buf : List Nat) :
    ∃ r, (_worker st buf).2 = [r] ∧
      (r.opcode = Opcode.kRspAck ∨ r.opcode = Opcode.kRspNak) := by
  cases hdec : decode buf with
  | none =>
    rw [worker_decode_none st buf hdec]
    exact ⟨_, rfl, Or.inr rfl⟩
  | some pr =>
    obtain ⟨h, d⟩ := pr
    rw [worker_decode_some st buf h d hdec]
    by_cases hcrc : h.crc32 = frameCrc h d
    · rw [if_pos hcrc]
      exact ⟨_, rfl, reply_ack_or_nak h (dispatch st h d).2⟩
    · rw [if_neg hcrc]
      exact ⟨_, rfl, Or.inr rfl⟩

/-- Claim C2: a frame whose recomputed CRC32 over header-with-crc-zeroed plus
data differs from its crc32 field is answered with a Sequence-error NAK and no
operation is executed (the state is unchanged, never a successful dispatch). -/
theorem crc_mismatch_fails_closed (st : FTPState) (buf : List Nat)
    (h : RequestHeader) (d : List Nat)
    (hdec : decode buf = some (h, d)) (hcrc : h.crc32 ≠ frameCrc h d) :
    _worker st buf =
      (st, [{ opcode := Opcode.kRspNak, session := h.session,
              data := [errByte ErrorCode.kErrSequence, h.opcode] }]) := by
  rw [worker_decode_some st buf h d hdec, if_neg hcrc]
  rfl

theorem crc_mismatch_fails_closed_witness :
    _worker st0 (headerBytes hdrTerm0) =
      (st0, [{ opcode := Opcode.kRspNak, session := hdrTerm0.session,
               data := [errByte ErrorCode.kErrSequence, hdrTerm0.opcode] }]) :=
  crc_mismatch_fails_closed st0 (headerBytes hdrTerm0) hdrTerm0 []
    (by decide) (by decide)

/-- Claim C3: a session index outside [0, kMaxSession) or naming an unopened
slot yields no session from Session::get, and the read and write operations
then return the NoSession error without any session dereference (the state is
returned unchanged). -/
theorem session_get_checked (st : FTPState) (h : RequestHeader) (d : List Nat) :
    (∀ tbl i, kMaxSession ≤ i → Session.get tbl i = none) ∧
    (∀ tbl i, tbl.getD i none = none → Session.get tbl i = none) ∧
    (Session.get st.sessions h.session = none →
      _workRead st h = .err ErrorCode.kErrNoSession ∧
      _workWrite st h d = (st, .err ErrorCode.kErrNoSession)) := by
  refine ⟨?_, ?_, ?_⟩
  · intro tbl i hi
    unfold Session.get
    rw [if_neg (Nat.not_lt.mpr hi)]
  · intro tbl i hnone
    unfold Session.get
    split
    · exact hnone
    · rfl
  · intro hget
    constructor
    · unfold _workRead
      rw [hget]
    · unfold _workWrite
      rw [hget]

theorem session_get_checked_witness :
    Session.get [some [97], none] 5 = none ∧
    Session.get [none, none] 1 = none ∧
    (_workRead st0 hdrS5 = .err ErrorCode.kErrNoSession ∧
     _workWrite st0 hdrS5 [7] = (st0, .err ErrorCode.kErrNoSession)) :=
  ⟨(session_get_checked st0 hdrS5 [7]).1 [some [97], none] 5 (by decide),
   (session_get_checked st0 hdrS5 [7]).2.1 [none, none] 1 (by decide),
   (session_get_checked st0 hdrS5 [7]).2.2 (by decide)⟩

/-- Claim C4: the request slot pool has fixed capacity kRequestQueueSize = 2:
from the full free list both buffers can be acquired, a third acquire returns
none (the frame is dropped, nothing is queued), and after any release a new
acquire succeeds again. -/
theorem pool_backpressure :
    kRequestQueueSize = 2 ∧
    (_dqFree (List.range kRequestQueueSize)).1 = some 0 ∧
    (_dqFree ((_dqFree (List.range kRequestQueueSize)).2)).1 = some 1 ∧
    _dqFree ((_dqFree ((_dqFree (List.range kRequestQueueSize)).2)).2) =
      (none, []) ∧
    (∀ q r, ((_dqFree (_qFree q r)).1).isSome = true) := by
  refine ⟨rfl, by decide, by decide, by decide, ?_⟩
  intro q r
  cases q with
  | nil => rfl
  | cons x rest => rfl

/-- Claim C5: a write on an open session whose offset is not the file's
current end-of-file position is rejected with NotAppend and the state is
unchanged; a write at exactly the end-of-file offset succeeds and the file
grows by exactly the written length. -/
theorem write_strict_append (st : FTPState) (h : RequestHeader) (d : List Nat)
    (p : Path) (f : FileT)
    (hs : Session.get st.sessions h.session = some p)
    (hf : fsLookup st.fs p = some f)
    (hwrap : h.offset + d.length < 4294967296) :
    (h.offset ≠ f.length →
      _workWrite st h d = (st, .err ErrorCode.kErrNotAppend)) ∧
    (h.offset = f.length →
      (_workWrite st h d).2 = .ok h.session [] ∧
      fsLookup (_workWrite st h d).1.fs p = some (f ++ d) ∧
      (f ++ d).length = f.length + d.length) := by
  constructor
  · intro hne
    simp only [_workWrite, hs, hf]
    rw [if_neg (Nat.not_le.mpr hwrap), if_neg hne]
  · intro heq
    simp only [_workWrite, hs, hf]
    rw [if_neg (Nat.not_le.mpr hwrap), if_pos heq]
    exact ⟨rfl, fsLookup_fsSet st.fs p (f ++ d), by simp⟩

theorem write_strict_append_witness :
    _workWrite st0 hdrW1 [9, 9] = (st0, .err ErrorCode.kErrNotAppend) ∧
    ((_workWrite st0 hdrW3 [9, 9]).2 = .ok hdrW3.session [] ∧
     fsLookup (_workWrite st0 hdrW3 [9, 9]).1.fs [97] =
       some (([1, 2, 3] : FileT) ++ [9, 9]) ∧
     (([1, 2, 3] : FileT) ++ [9, 9]).length =
       ([1, 2, 3] : FileT).length + ([9, 9] : List Nat).length) :=
  ⟨(write_strict_append st0 hdrW1 [9, 9] [97] [1, 2, 3]
      (by decide) (by decide) (by decide)).1 (by decide),
   (write_strict_append st0 hdrW3 [9, 9] [97] [1, 2, 3]
      (by decide) (by decide) (by decide)).2 (by decide)⟩

/-- Claim C6: decode rejects a frame whose magic byte differs from the
protocol magic or whose declared size would overrun the buffer, executing
nothing (the worker leaves the state unchanged on a rejected frame); every
frame that decode accepts has magic equal to kProtocolMagic, size at most
kMaxDataLength, and a data area of exactly size bytes. -/
theorem decode_bounds (st : FTPState) (buf : List Nat) :
    (∀ h d, decode buf = some (h, d) →
      h.magic = kProtocolMagic ∧ h.size ≤ kMaxDataLength ∧ d.length = h.size) ∧
    (decode buf = none → (_worker st buf).1 = st) := by
  constructor
  · intro h d hdec
    unfold decode at hdec
    split at hdec
    · exact Option.noConfusion hdec
    · split at hdec
      · rename_i hcond
        simp only [Option.some.injEq, Prod.mk.injEq] at hdec
        obtain ⟨rfl, rfl⟩ := hdec
        refine ⟨hcond.1, hcond.2.1, ?_⟩
        have hlen := hcond.2.2
        simp only [List.length_map, List.length_take, List.length_drop]
        omega
      · exact Option.noConfusion hdec
  · intro hnone
    rw [worker_decode_none st buf hnone]

theorem decode_bounds_witness :
    (termHdr.magic = kProtocolMagic ∧ termHdr.size ≤ kMaxDataLength ∧
      ([] : List Nat).length = termHdr.size) ∧
    (_worker st0 []).1 = st0 :=
  ⟨(decode_bounds st0 termFrame).1 termHdr [] (by decide),
   (decode_bounds st0 []).2 (by decide)⟩

/-- Claim C7: a read on an open session at an offset at or beyond the current
file length yields the explicit Eof error code, while a read below the file
length succeeds with the requested bytes (possibly zero of them), and a
successful (possibly empty) read is a different outcome from the Eof error. -/
theorem read_eof_distinct (st : FTPState) (h : RequestHeader)
    (p : Path) (f : FileT)
    (hs : Session.get st.sessions h.session = some p)
    (hf : fsLookup st.fs p = some f)
    (hwrap : h.offset + h.size < 4294967296) :
    (f.length ≤ h.offset → _workRead st h = .err ErrorCode.kErrEOF) ∧
    (h.offset < f.length →
      _workRead st h = .ok h.session ((f.drop h.offset).take h.size)) ∧
    (∀ s bs, (WorkResult.ok s bs : WorkResult) ≠ .err ErrorCode.kErrEOF) := by
  refine ⟨?_, ?_, ?_⟩
  · intro heof
    simp only [_workRead, hs, hf]
    rw [if_neg (Nat.not_le.mpr hwrap), if_pos heof]
  · intro hlt
    simp only [_workRead, hs, hf]
    rw [if_neg (Nat.not_le.mpr hwrap), if_neg (Nat.not_le.mpr hlt)]
  · intro s bs hcontra
    exact WorkResult.noConfusion hcontra

theorem read_eof_distinct_witness :
    _workRead st0 hdrR3 = .err ErrorCode.kErrEOF ∧
    _workRead st0 hdrR0 =
      .ok hdrR0.session ((([1, 2, 3] : FileT).drop hdrR0.offset).take hdrR0.size) ∧
    (WorkResult.ok 0 [] : WorkResult) ≠ .err ErrorCode.kErrEOF :=
  ⟨(read_eof_distinct st0 hdrR3 [97] [1, 2, 3]
      (by decide) (by decide) (by decide)).1 (by decide),
   (read_eof_distinct st0 hdrR0 [97] [1, 2, 3]
      (by decide) (by decide) (by decide)).2.1 (by decide),
   (read_eof_distinct st0 hdrR0 [97] [1, 2, 3]
      (by decide) (by decide) (by decide)).2.2 0 []⟩

/-- Claim C8: offset arithmetic is 32-bit — every decoded header's offset is
below 2^32 and its size fits a byte — and a read or write on an open session
whose offset plus length would wrap past 2^32 is rejected with TooBig instead
of being performed (the write leaves the state unchanged). -/
theorem offset_arith_32bit (st : FTPState) (h : RequestHeader) (d : List Nat)
    (p : Path)
    (hs : Session.get st.sessions h.session = some p) :
    (∀ buf hh dd, decode buf = some (hh, dd) →
      hh.offset < 4294967296 ∧ hh.size < 256) ∧
    (4294967296 ≤ h.offset + h.size →
      _workRead st h = .err ErrorCode.kErrTooBig) ∧
    (4294967296 ≤ h.offset + d.length →
      _workWrite st h d = (st, .err ErrorCode.kErrTooBig)) := by
  refine ⟨?_, ?_, ?_⟩
  · intro buf hh dd hdec
    unfold decode at hdec
    split at hdec
    · exact Option.noConfusion hdec
    · split at hdec
      · simp only [Option.some.injEq, Prod.mk.injEq] at hdec
        obtain ⟨rfl, rfl⟩ := hdec
        exact ⟨readLe32_lt buf 8, byteAt_lt buf 3⟩
      · exact Option.noConfusion hdec
  · intro hbig
    simp only [_workRead, hs]
    rw [if_pos hbig]
  · intro hbig
    simp only [_workWrite, hs]
    rw [if_pos hbig]

theorem offset_arith_32bit_witness :
    (termHdr.offset < 4294967296 ∧ termHdr.size < 256) ∧
    _workRead st0 hdrBig = .err ErrorCode.kErrTooBig ∧
    _workWrite st0 hdrBig (List.replicate 16 1) =
      (st0, .err ErrorCode.kErrTooBig) :=
  ⟨(offset_arith_32bit st0 hdrBig (List.replicate 16 1) [97] (by decide)).1
      termFrame termHdr [] (by decide),
   (offset_arith_32bit st0 hdrBig (List.replicate 16 1) [97] (by decide)).2.1
      (by decide),
   (offset_arith_32bit st0 hdrBig (List.replicate 16 1) [97] (by decide)).2.2
      (by decide)⟩

/-- Claim C9: terminate is idempotent — terminating twice leaves the same
session table as terminating once, terminating an already-unopened slot is a
no-op, after terminate the slot is unopened — and a dispatched Terminate
request (valid frame, correct CRC) is always answered with an ACK. -/
theorem terminate_idempotent (st : FTPState) (buf : List Nat)
    (h : RequestHeader) (d : List Nat) :
    (∀ tbl i, Session.terminate (Session.terminate tbl i) i =
      Session.terminate tbl i) ∧
    (∀ tbl i, tbl.getD i none = none → Session.terminate tbl i = tbl) ∧
    (∀ tbl i, Session.get (Session.terminate tbl i) i = none) ∧
    (decode buf = some (h, d) → h.crc32 = frameCrc h d →
      h.opcode = opByte Opcode.kCmdTerminate →
      (_worker st buf).2 =
        [{ opcode := Opcode.kRspAck, session := h.session, data := [] }]) := by
  refine ⟨?_, ?_, ?_, ?_⟩
  · intro tbl i
    unfold Session.terminate
    by_cases hi : i < kMaxSession
    · simp only [if_pos hi]
      exact List.set_set none none tbl i
    · simp only [if_neg hi]
  · intro tbl i hnone
    unfold Session.terminate
    split
    · exact set_none_of_getD_none tbl i hnone
    · rfl
  · intro tbl i
    unfold Session.terminate Session.get
    by_cases hi : i < kMaxSession
    · simp only [if_pos hi]
      rcases Nat.lt_or_ge i tbl.length with hlen | hlen
      · rw [List.getD_eq_getElem?_getD, List.getElem?_set_self hlen]
        rfl
      · rw [List.getD_eq_getElem?_getD,
          List.getElem?_eq_none (by simpa using hlen)]
        rfl
    · simp only [if_neg hi]
  · intro hdec hcrc hop
    rw [worker_decode_some st buf h d hdec, if_pos hcrc]
    simp [dispatch, hop, opByte, opcodeOfByte, _reply]

theorem terminate_idempotent_witness :
    Session.terminate (Session.terminate [some [97], none] 0) 0 =
      Session.terminate [some [97], none] 0 ∧
    Session.terminate [none, none] 0 = [none, none] ∧
    Session.get (Session.terminate [some [97], none] 0) 0 = none ∧
    (_worker st0 termFrame).2 =
      [{ opcode := Opcode.kRspAck, session := termHdr.session, data := [] }] :=
  ⟨(terminate_idempotent st0 termFrame termHdr []).1 [some [97], none] 0,
   (terminate_idempotent st0 termFrame termHdr []).2.1 [none, none] 0
     (by decide),
   (terminate_idempotent st0 termFrame termHdr []).2.2.1 [some [97], none] 0,
   (terminate_idempotent st0 termFrame termHdr []).2.2.2
     (by decide) (by decide) (by decide)⟩

/-- Claim C10: the free list is FIFO — _qFree appends the released buffer at
the tail (dq_addlast) and _dqFree removes from the head (dq_remfirst), so
after releasing buffers a then b into an empty list two successive acquires
return a then b, and an acquire on an empty list returns none immediately. -/
theorem freelist_fifo :
    (∀ q r, _qFree q r = q ++ [r]) ∧
    (∀ r rest, _dqFree (r :: rest) = (some r, rest)) ∧
    _dqFree [] = (none, []) ∧
    (∀ a b,
      (_dqFree (_qFree (_qFree [] a) b)).1 = some a ∧
      (_dqFree ((_dqFree (_qFree (_qFree [] a) b)).2)).1 = some b) :=
  ⟨fun _ _ => rfl, fun _ _ => rfl, rfl, fun _ _ => ⟨rfl, rfl⟩⟩

end MavlinkFTP
